import Mathlib

/-!
Shallow embedding of the position-lifecycle / order-execution engine in
`src/lib/models.py` (classes `TradeAdvisor` and `Exchange`), together with
theorems settling the specification claims about it.

Modelling conventions:
- Python `float` amounts and prices are modelled as exact rationals (`Rat`).
- Python `datetime.now()` is an explicit `now : Nat` parameter (hours since
  epoch); `timedelta(hours=d)` is addition on `Nat`.
- Python dicts (`_asset_balances`, `_buy_time`, `_sell_time`) are association
  lists in insertion order: assignment replaces in place or appends, `del`
  removes, lookup takes the first match.  This mirrors Python 3 dict
  semantics including iteration order.
- Exchange I/O (`fetch_balance`, `fetch_ticker`, `create_market_*_order`) is
  an explicit environment `Env`; each call made is recorded as an `Event`,
  and logger calls are recorded as `Event.log`.
- Python exceptions are `Except PyErr`; a function that cannot leak an
  exception (because the source wraps its whole body in `try/except`)
  returns no `Except` component.
- `TradeOrder('sell', asset, amount)` in `_sellOverdueAssets` passes three
  arguments to the four-field namedtuple `Order` declared at line 6 of the
  source, which raises `TypeError` in Python; the model reproduces this.
-/

namespace GCT

/-- Python dict read: first matching key of an association list. -/
def lookupA (k : String) : List (String × α) → Option α
  | [] => none
  | (k', v) :: t => if k' = k then some v else lookupA k t

/-- Python `in` test on a dict. -/
def containsA (k : String) (l : List (String × α)) : Bool :=
  (lookupA k l).isSome

/-- Python dict assignment: replace the value in place if the key is
present, otherwise append, preserving insertion order. -/
def insertA (k : String) (v : α) : List (String × α) → List (String × α)
  | [] => [(k, v)]
  | (k', v') :: t => if k' = k then (k, v) :: t else (k', v') :: insertA k v t

/-- Python `del` on a dict (the caller checks presence separately, as the
source's `del` raises `KeyError` when the key is missing). -/
def eraseA (k : String) : List (String × α) → List (String × α)
  | [] => []
  | (k', v') :: t => if k' = k then eraseA k t else (k', v') :: eraseA k t

/-- namedtuple `TradeAdvice = ('position', 'asset', 'duration')`.  The
duration is `none` for sell advice. -/
structure TradeAdvice where
  position : String
  asset : String
  duration : Option Nat
deriving DecidableEq

/-- namedtuple `Order = ('position', 'asset', 'amount', 'duration')`,
called `TradeOrder` in the source. -/
structure TradeOrder where
  position : String
  asset : String
  amount : Rat
  duration : Option Nat
deriving DecidableEq

/-- Python exceptions that the embedded code can raise. -/
inductive PyErr where
  | keyError (k : String)
  | typeError
  | indexError
  | exchangeError (symbol : String)
deriving DecidableEq

/-- Logger messages emitted by the source, one constructor per call site. -/
inductive LogMsg where
  | executed (o : TradeOrder)
  | failedSell (asset : String)
  | failedBuy (asset : String)
  | cannotBuy (asset : String)
deriving DecidableEq

/-- Observable interactions with the exchange collaborator and the logger. -/
inductive Event where
  | fetchBalance
  | fetchTicker (asset : String)
  | marketBuy (symbol : String) (amount : Rat)
  | marketSell (symbol : String) (amount : Rat)
  | log (msg : LogMsg)
deriving DecidableEq

/-- Environment: responses of the external exchange.  `fetchedBalances` is
the balance list returned by `fetch_balance`, `tickerPrice` the `last`
field of `fetch_ticker` (`none` models the call raising), and `orderFails`
says whether a `create_market_*_order` call for a symbol raises. -/
structure Env where
  fetchedBalances : List (String × Rat)
  tickerPrice : String → Option Rat
  orderFails : String → Bool

/-- Mutable state of an `Exchange` object: `_asset_balances`, `_buy_time`,
`_sell_time`, and the `max_fee` constructor argument. -/
structure ExchState where
  balances : List (String × Rat)
  buyTime : List (String × Nat)
  sellTime : List (String × Nat)
  maxFee : Rat
deriving DecidableEq

/-- `_refreshBalances` body: rebuild the balance dict from the fetched list. -/
def refreshedBalances (env : Env) : List (String × Rat) :=
  env.fetchedBalances.foldl (fun acc p => insertA p.1 p.2 acc) []

/-- `_refreshBalances`: wholesale replacement of `_asset_balances`; the
fetch is recorded as an event. -/
def refreshBalances (env : Env) (s : ExchState) : ExchState × List Event :=
  ({ s with balances := refreshedBalances env }, [Event.fetchBalance])

/-- Body of `_executeOrder` after the balance guard (models.py lines
97-107): build the symbol, submit the market order, update or remove the
position timestamps, log on success.  The `timedelta(hours=order.duration)`
on line 101 raises `TypeError` when `duration` is `None`, after `_buy_time`
has already been written; `del` on a missing key raises `KeyError`. -/
def executeOrderCore (env : Env) (now : Nat) (s1 : ExchState) (order : TradeOrder) :
    ExchState × List Event × Except PyErr Unit :=
  let symbol := order.asset ++ "/USDT"
  if order.position = "buy" then
    let tr2 := [Event.marketBuy symbol order.amount]
    if env.orderFails symbol then (s1, tr2, Except.error (PyErr.exchangeError symbol))
    else
      let s2 := { s1 with buyTime := insertA order.asset now s1.buyTime }
      match order.duration with
      | none => (s2, tr2, Except.error PyErr.typeError)
      | some d =>
        let s3 := { s2 with sellTime := insertA order.asset (now + d) s2.sellTime }
        (s3, tr2 ++ [Event.log (LogMsg.executed order)], Except.ok ())
  else if order.position = "sell" then
    let tr2 := [Event.marketSell symbol order.amount]
    if env.orderFails symbol then (s1, tr2, Except.error (PyErr.exchangeError symbol))
    else if containsA order.asset s1.buyTime then
      let s2 := { s1 with buyTime := eraseA order.asset s1.buyTime }
      if containsA order.asset s2.sellTime then
        let s3 := { s2 with sellTime := eraseA order.asset s2.sellTime }
        (s3, tr2 ++ [Event.log (LogMsg.executed order)], Except.ok ())
      else (s2, tr2, Except.error (PyErr.keyError order.asset))
    else (s1, tr2, Except.error (PyErr.keyError order.asset))
  else (s1, [], Except.ok ())

/-- `_executeOrder` (models.py lines 94-107): refresh once if the asset is
missing from the snapshot, drop the order silently if it is still missing,
otherwise run the body. -/
def executeOrder (env : Env) (now : Nat) (s : ExchState) (order : TradeOrder) :
    ExchState × List Event × Except PyErr Unit :=
  let r1 : ExchState × List Event :=
    if containsA order.asset s.balances then (s, []) else refreshBalances env s
  if containsA order.asset r1.1.balances then
    let r2 := executeOrderCore env now r1.1 order
    (r2.1, r1.2 ++ r2.2.1, r2.2.2)
  else (r1.1, r1.2, Except.ok ())

/-- `_sellAsset` (lines 109-115).  The whole body sits in `try/except`, so
no exception can escape; the except branch logs the failure. -/
def sellAsset (env : Env) (now : Nat) (s : ExchState) (asset : String) (percent : Rat) :
    ExchState × List Event :=
  match lookupA asset s.balances with
  | none => (s, [Event.log (LogMsg.failedSell asset)])
  | some bal =>
    let amount := bal * percent / 100 * (1 - s.maxFee)
    if 0 < amount then
      let r := executeOrder env now s ⟨"sell", asset, amount, none⟩
      match r.2.2 with
      | Except.ok _ => (r.1, r.2.1)
      | Except.error _ => (r.1, r.2.1 ++ [Event.log (LogMsg.failedSell asset)])
    else (s, [])

/-- `_buyAsset` (lines 117-125).  The `self._asset_balances['USDT']` read
on line 118 is outside the `try` block: a missing quote-currency entry
raises a `KeyError` that escapes to the caller.  Everything from the ticker
fetch onwards is inside the `try` and cannot escape.  A zero quote amount
is logged but execution continues to the (vacuous) conversion. -/
def buyAsset (env : Env) (now : Nat) (s : ExchState) (asset : String) (percent : Rat)
    (duration : Option Nat) : ExchState × List Event × Except PyErr Unit :=
  match lookupA "USDT" s.balances with
  | none => (s, [], Except.error (PyErr.keyError "USDT"))
  | some usdt =>
    let amountUsdt := usdt * percent / 100 * (1 - s.maxFee)
    let tr0 : List Event :=
      if amountUsdt = 0 then [Event.log (LogMsg.cannotBuy asset)] else []
    let tr1 := tr0 ++ [Event.fetchTicker asset]
    match env.tickerPrice asset with
    | none => (s, tr1 ++ [Event.log (LogMsg.failedBuy asset)], Except.ok ())
    | some price =>
      if price = 0 then (s, tr1 ++ [Event.log (LogMsg.failedBuy asset)], Except.ok ())
      else
        let amountAsset := amountUsdt / price
        if 0 < amountAsset then
          let r := executeOrder env now s ⟨"buy", asset, amountAsset, duration⟩
          match r.2.2 with
          | Except.ok _ => (r.1, tr1 ++ r.2.1, Except.ok ())
          | Except.error _ => (r.1, tr1 ++ r.2.1 ++ [Event.log (LogMsg.failedBuy asset)], Except.ok ())
        else (s, tr1, Except.ok ())

/-- Loop body of `_sellAllAssets` (lines 127-130): iterate the snapshot of
the balance items taken at loop entry, threading the state. -/
def sellAllGo (env : Env) (now : Nat) : List (String × Rat) → ExchState → ExchState × List Event
  | [], s => (s, [])
  | (a, b) :: t, s =>
    if 0 < b ∧ a ≠ "USDT" then
      let r1 := sellAsset env now s a 100
      let r2 := sellAllGo env now t r1.1
      (r2.1, r1.2 ++ r2.2)
    else sellAllGo env now t s

/-- `_sellAllAssets` (lines 127-130). -/
def sellAllAssets (env : Env) (now : Nat) (s : ExchState) : ExchState × List Event :=
  sellAllGo env now s.balances s

/-- Loop of `_sellOverdueAssets` (lines 132-135).  For the first overdue
asset the source evaluates `self._asset_balances[asset]` (possible
`KeyError`) and then calls the four-field namedtuple `TradeOrder` with only
three arguments, which raises `TypeError`; either way the loop aborts with
an exception before any exchange call or state change. -/
def sellOverdueList (now : Nat) (balances : List (String × Rat)) :
    List (String × Nat) → Except PyErr Unit
  | [] => Except.ok ()
  | (asset, t) :: rest =>
    if t < now then
      match lookupA asset balances with
      | none => Except.error (PyErr.keyError asset)
      | some _ => Except.error PyErr.typeError
    else sellOverdueList now balances rest

/-- `_sellOverdueAssets` (lines 132-135). -/
def sellOverdueAssets (env : Env) (now : Nat) (s : ExchState) :
    ExchState × List Event × Except PyErr Unit :=
  (s, [], sellOverdueList now s.balances s.sellTime)

/-- `sellRequiredAssets` (lines 137-138): public wrapper of the sweep. -/
def sellRequiredAssets (env : Env) (now : Nat) (s : ExchState) :
    ExchState × List Event × Except PyErr Unit :=
  sellOverdueAssets env now s

/-- `executeTradeAdvice` (lines 140-146).  On `sell`, the `asset == 'all'`
and `asset in self._asset_balances` tests are two independent `if`s. -/
def executeTradeAdvice (env : Env) (now : Nat) (s : ExchState) (advice : TradeAdvice) :
    ExchState × List Event × Except PyErr Unit :=
  if advice.position = "buy" then
    buyAsset env now s advice.asset 20 advice.duration
  else if advice.position = "sell" then
    let r1 : ExchState × List Event :=
      if advice.asset = "all" then sellAllAssets env now s else (s, [])
    if containsA advice.asset r1.1.balances then
      let r2 := sellAsset env now r1.1 advice.asset 100
      (r2.1, r1.2 ++ r2.2, Except.ok ())
    else (r1.1, r1.2, Except.ok ())
  else (s, [], Except.ok ())

/-- `Exchange.__init__` (lines 69-79): start with empty position maps,
refresh balances, then force-liquidate every non-quote holding. -/
def exchangeInit (env : Env) (now : Nat) (maxFee : Rat) : ExchState × List Event :=
  let s0 : ExchState := { balances := refreshedBalances env, buyTime := [], sellTime := [], maxFee := maxFee }
  let r := sellAllAssets env now s0
  (r.1, Event.fetchBalance :: r.2)

/-- Python `str.split()` with no separator: split on runs of whitespace,
dropping empty tokens.  Implemented by structural recursion on the
character list so that it evaluates in the kernel. -/
def pySplitAux : List Char → List Char → List String
  | [], acc => if acc.isEmpty then [] else [String.mk acc.reverse]
  | c :: cs, acc =>
    if c.isWhitespace then
      if acc.isEmpty then pySplitAux cs []
      else String.mk acc.reverse :: pySplitAux cs []
    else pySplitAux cs (c :: acc)

/-- Tokenisation used by `_parseGptResponse`: `response.split()`. -/
def pySplit (s : String) : List String :=
  pySplitAux s.data []

/-- Python `str.isdigit` restricted to ASCII digits, which is all the
parser's numeric tokens use. -/
def pyIsDigit (s : String) : Bool :=
  !s.data.isEmpty && s.data.all Char.isDigit

/-- Python `int(...)` on a string of ASCII digits. -/
def pyToNat (s : String) : Nat :=
  s.data.foldl (fun n c => 10 * n + (c.toNat - 48)) 0

/-- `TradeAdvisor._parseGptResponse` (lines 46-57).  Note that after the
destructuring `position, asset, *parts = parts` the name `parts` is the
list of tokens after the first two, so `len(parts) == 2` tests the
leftover count, and `parts[0]` on an empty leftover raises `IndexError`. -/
def parseGptResponse (response : String) : Except PyErr (Option TradeAdvice) :=
  match pySplit response with
  | [] => Except.ok none
  | [_] => Except.ok none
  | p :: a :: rest =>
    if p = "sell" then Except.ok (some ⟨p, a, none⟩)
    else if p = "buy" then
      if rest.length = 2 then Except.ok none
      else
        let a1 := if a = "all" then "AVAX" else a
        match rest with
        | [] => Except.error PyErr.indexError
        | d :: _ =>
          if pyIsDigit d then Except.ok (some ⟨p, a1, some (pyToNat d)⟩)
          else Except.ok none
    else Except.ok none

/-- States reachable through the engine's operations: construction,
directive execution with an arbitrary well-typed directive, and the
expiry sweep. -/
inductive Reachable : ExchState → Prop where
  | init : ∀ env now fee, Reachable (exchangeInit env now fee).1
  | advice : ∀ env now adv s, Reachable s →
      Reachable (executeTradeAdvice env now s adv).1
  | sweep : ∀ env now s, Reachable s →
      Reachable (sellRequiredAssets env now s).1

/-- States reachable when every buy directive carries a duration (the
shape the directive parser actually produces for buys). -/
inductive ReachableD : ExchState → Prop where
  | init : ∀ env now fee, ReachableD (exchangeInit env now fee).1
  | advice : ∀ env now adv s, ReachableD s →
      (adv.position = "buy" → (adv.duration).isSome) →
      ReachableD (executeTradeAdvice env now s adv).1
  | sweep : ∀ env now s, ReachableD s →
      ReachableD (sellRequiredAssets env now s).1

/-- Parity of the two position-timestamp maps: same keys in the same
insertion order. -/
def keysEq (s : ExchState) : Prop :=
  s.buyTime.map Prod.fst = s.sellTime.map Prod.fst

/-- An event is an order submission only with positive amount. -/
def orderAmountPosB : Event → Bool
  | Event.marketBuy _ a => decide (0 < a)
  | Event.marketSell _ a => decide (0 < a)
  | _ => true

/-- Every order submission in a trace has positive amount. -/
def posOrdersB (tr : List Event) : Bool :=
  tr.all orderAmountPosB

/-- Propositional form of `posOrdersB`. -/
def posOrders (tr : List Event) : Prop :=
  ∀ e ∈ tr, orderAmountPosB e = true

/-- Concrete environment used by witnesses: quote balance 100, a BTC entry
with zero balance, unit ticker price, no order failures. -/
def envW : Env :=
  { fetchedBalances := [("USDT", 100), ("BTC", 0)]
    tickerPrice := fun _ => some 1
    orderFails := fun _ => false }

/-- Concrete state with an overdue tracked BTC position. -/
def sOverdue : ExchState :=
  { balances := [("BTC", 2), ("USDT", 1)], buyTime := [("BTC", 0)]
    sellTime := [("BTC", 5)], maxFee := 0 }

/-- Concrete state holding BTC with no tracked position. -/
def sUntracked : ExchState :=
  { balances := [("BTC", 4), ("USDT", 1)], buyTime := [], sellTime := [], maxFee := 0 }

/-- Concrete state where the literal symbol `all` is itself a tracked,
positively-funded asset. -/
def sDouble : ExchState :=
  { balances := [("all", 10), ("BTC", 5), ("USDT", 100)]
    buyTime := [("all", 0), ("BTC", 0)]
    sellTime := [("all", 99), ("BTC", 99)], maxFee := 0 }

/-- Concrete state whose balance snapshot lacks the quote currency. -/
def sNoQuote : ExchState :=
  { balances := [("BTC", 3)], buyTime := [], sellTime := [], maxFee := 0 }

lemma map_fst_insertA (k : String) (v₁ : α) (v₂ : β) :
    ∀ (l₁ : List (String × α)) (l₂ : List (String × β)),
      l₁.map Prod.fst = l₂.map Prod.fst →
      (insertA k v₁ l₁).map Prod.fst = (insertA k v₂ l₂).map Prod.fst := by
  intro l₁
  induction l₁ with
  | nil =>
    intro l₂ h
    cases l₂ with
    | nil => rfl
    | cons q t => simp at h
  | cons p t ih =>
    intro l₂ h
    cases l₂ with
    | nil => simp at h
    | cons q t₂ =>
      obtain ⟨pk, pv⟩ := p
      obtain ⟨qk, qv⟩ := q
      simp only [List.map_cons, List.cons.injEq] at h
      obtain ⟨h1, h2⟩ := h
      subst h1
      by_cases hk : pk = k
      · simp [insertA, hk, h2]
      · simp [insertA, hk, ih t₂ h2]

lemma map_fst_eraseA (k : String) :
    ∀ (l₁ : List (String × α)) (l₂ : List (String × β)),
      l₁.map Prod.fst = l₂.map Prod.fst →
      (eraseA k l₁).map Prod.fst = (eraseA k l₂).map Prod.fst := by
  intro l₁
  induction l₁ with
  | nil =>
    intro l₂ h
    cases l₂ with
    | nil => rfl
    | cons q t => simp at h
  | cons p t ih =>
    intro l₂ h
    cases l₂ with
    | nil => simp at h
    | cons q t₂ =>
      obtain ⟨pk, pv⟩ := p
      obtain ⟨qk, qv⟩ := q
      simp only [List.map_cons, List.cons.injEq] at h
      obtain ⟨h1, h2⟩ := h
      subst h1
      by_cases hk : pk = k
      · simp [eraseA, hk, ih t₂ h2]
      · simp [eraseA, hk, ih t₂ h2]

lemma containsA_congr (k : String) :
    ∀ (l₁ : List (String × α)) (l₂ : List (String × β)),
      l₁.map Prod.fst = l₂.map Prod.fst →
      containsA k l₁ = containsA k l₂ := by
  intro l₁
  induction l₁ with
  | nil =>
    intro l₂ h
    cases l₂ with
    | nil => rfl
    | cons q t => simp at h
  | cons p t ih =>
    intro l₂ h
    cases l₂ with
    | nil => simp at h
    | cons q t₂ =>
      obtain ⟨pk, pv⟩ := p
      obtain ⟨qk, qv⟩ := q
      simp only [List.map_cons, List.cons.injEq] at h
      obtain ⟨h1, h2⟩ := h
      subst h1
      by_cases hk : pk = k
      · simp [containsA, lookupA, hk]
      · simpa [containsA, lookupA, hk] using ih t₂ h2

lemma executeOrderCore_keysEq (env : Env) (now : Nat) (s : ExchState) (o : TradeOrder)
    (hd : o.position = "buy" → (o.duration).isSome) (h : keysEq s) :
    keysEq (executeOrderCore env now s o).1 := by
  by_cases hb : o.position = "buy"
  · cases hdur : o.duration with
    | none => simp [hdur] at hd; exact absurd (hd hb) (by simp)
    | some d =>
      by_cases hf : env.orderFails (o.asset ++ "/USDT") = true
      · simp [executeOrderCore, hb, hf]; exact h
      · simp only [executeOrderCore, hb, if_true, eq_self_iff_true, hdur,
          Bool.not_eq_true] at hf ⊢
        simp [hf, keysEq] at h ⊢
        exact map_fst_insertA o.asset now (now + d) s.buyTime s.sellTime h
  · by_cases hs' : o.position = "sell"
    · by_cases hf : env.orderFails (o.asset ++ "/USDT") = true
      · simp [executeOrderCore, hb, hs', hf]; exact h
      · by_cases hc : containsA o.asset s.buyTime = true
        · have hc2 : containsA o.asset s.sellTime = true := by
            rw [← containsA_congr o.asset s.buyTime s.sellTime h]; exact hc
          simp only [executeOrderCore, hb, hs', if_true, if_false,
            eq_self_iff_true, Bool.not_eq_true] at hf ⊢
          simp [hf, hc, hc2, keysEq] at h ⊢
          exact map_fst_eraseA o.asset s.buyTime s.sellTime h
        · simp [executeOrderCore, hb, hs', hf, hc]; exact h
    · simp [executeOrderCore, hb, hs']; exact h

lemma executeOrder_keysEq (env : Env) (now : Nat) (s : ExchState) (o : TradeOrder)
    (hd : o.position = "buy" → (o.duration).isSome) (h : keysEq s) :
    keysEq (executeOrder env now s o).1 := by
  unfold executeOrder
  by_cases c1 : containsA o.asset s.balances = true
  · simp only [c1, if_true, if_pos]
    exact executeOrderCore_keysEq env now s o hd h
  · simp [c1, refreshBalances]
    by_cases c2 : containsA o.asset (refreshedBalances env) = true
    · simp [c2]
      exact executeOrderCore_keysEq env now _ o hd h
    · simp [c2]
      exact h

lemma executeOrderCore_trace (env : Env) (now : Nat) (s : ExchState) (o : TradeOrder) :
    ∀ e ∈ (executeOrderCore env now s o).2.1,
      e = Event.marketBuy (o.asset ++ "/USDT") o.amount ∨
      e = Event.marketSell (o.asset ++ "/USDT") o.amount ∨ ∃ m, e = Event.log m := by
  intro e he
  by_cases hb : o.position = "buy"
  · by_cases hf : env.orderFails (o.asset ++ "/USDT") = true
    · simp [executeOrderCore, hb, hf] at he
      simp [he]
    · cases hdur : o.duration with
      | none => simp [executeOrderCore, hb, hf, hdur] at he; simp [he]
      | some d =>
        simp [executeOrderCore, hb, hf, hdur] at he
        rcases he with he | he <;> simp [he]
  · by_cases hs' : o.position = "sell"
    · by_cases hf : env.orderFails (o.asset ++ "/USDT") = true
      · simp [executeOrderCore, hb, hs', hf] at he
        simp [he]
      · by_cases hc : containsA o.asset s.buyTime = true
        · by_cases hc2 : containsA o.asset (eraseA o.asset s.buyTime) = true ∨
              containsA o.asset s.sellTime = true
          all_goals
            simp [executeOrderCore, hb, hs', hf, hc] at he
            rcases he' : containsA o.asset s.sellTime <;> simp [he'] at he <;>
              first
                | (rcases he with he | he <;> simp [he])
                | simp [he]
        · simp [executeOrderCore, hb, hs', hf, hc] at he
          simp [he]
    · simp [executeOrderCore, hb, hs'] at he

lemma executeOrder_trace (env : Env) (now : Nat) (s : ExchState) (o : TradeOrder) :
    ∀ e ∈ (executeOrder env now s o).2.1,
      e = Event.fetchBalance ∨
      e = Event.marketBuy (o.asset ++ "/USDT") o.amount ∨
      e = Event.marketSell (o.asset ++ "/USDT") o.amount ∨ ∃ m, e = Event.log m := by
  intro e he
  unfold executeOrder at he
  by_cases c1 : containsA o.asset s.balances = true
  · simp only [c1, if_true] at he
    exact Or.inr (executeOrderCore_trace env now s o e he)
  · simp [c1, refreshBalances] at he
    by_cases c2 : containsA o.asset (refreshedBalances env) = true
    · simp [c2] at he
      rcases he with he | he
      · simp [he]
      · exact Or.inr (executeOrderCore_trace env now _ o e he)
    · simp [c2] at he
      simp [he]

lemma posOrders_iff (tr : List Event) : posOrdersB tr = true ↔ posOrders tr := by
  simp [posOrdersB, posOrders, List.all_eq_true]

lemma executeOrder_posOrders (env : Env) (now : Nat) (s : ExchState) (o : TradeOrder)
    (h : 0 < o.amount) : posOrders (executeOrder env now s o).2.1 := by
  intro e he
  rcases executeOrder_trace env now s o e he with h1 | h1 | h1 | ⟨m, h1⟩ <;>
    subst h1 <;> simp [orderAmountPosB, h]

lemma sellAsset_posOrders (env : Env) (now : Nat) (s : ExchState) (a : String) (p : Rat) :
    posOrders (sellAsset env now s a p).2 := by
  intro e he
  unfold sellAsset at he
  cases hl : lookupA a s.balances with
  | none => simp [hl] at he; simp [he, orderAmountPosB]
  | some bal =>
    by_cases hamt : 0 < bal * p / 100 * (1 - s.maxFee)
    · simp only [hl, hamt, if_true, if_pos] at he
      cases hr : (executeOrder env now s ⟨"sell", a, bal * p / 100 * (1 - s.maxFee), none⟩).2.2 with
      | ok u =>
        simp only [hr] at he
        exact executeOrder_posOrders env now s _ hamt e he
      | error er =>
        simp only [hr, List.mem_append, List.mem_singleton] at he
        rcases he with he | he
        · exact executeOrder_posOrders env now s _ hamt e he
        · subst he; simp [orderAmountPosB]
    · simp [hl, hamt] at he

lemma buyAsset_posOrders (env : Env) (now : Nat) (s : ExchState) (a : String) (p : Rat)
    (dur : Option Nat) : posOrders (buyAsset env now s a p dur).2.1 := by
  intro e he
  unfold buyAsset at he
  cases hl : lookupA "USDT" s.balances with
  | none => simp [hl] at he
  | some usdt =>
    have htr0 : ∀ e', e' ∈ (if usdt * p / 100 * (1 - s.maxFee) = 0 then
        [Event.log (LogMsg.cannotBuy a)] else ([] : List Event)) → orderAmountPosB e' = true := by
      intro e' he'
      split at he' <;> simp at he' <;> simp [he', orderAmountPosB]
    cases ht : env.tickerPrice a with
    | none =>
      simp only [hl, ht, List.mem_append, List.mem_singleton] at he
      rcases he with (he | he) | he
      · exact htr0 e he
      · subst he; simp [orderAmountPosB]
      · subst he; simp [orderAmountPosB]
    | some price =>
      by_cases hz : price = 0
      · simp only [hl, ht, hz, if_true, if_pos, List.mem_append, List.mem_singleton] at he
        rcases he with (he | he) | he
        · exact htr0 e he
        · subst he; simp [orderAmountPosB]
        · subst he; simp [orderAmountPosB]
      · by_cases hamt : 0 < usdt * p / 100 * (1 - s.maxFee) / price
        · simp only [hl, ht, hz, hamt, if_true, if_false, if_pos, if_neg, not_false_iff] at he
          cases hr : (executeOrder env now s
              ⟨"buy", a, usdt * p / 100 * (1 - s.maxFee) / price, dur⟩).2.2 with
          | ok u =>
            simp only [hr, List.mem_append, List.mem_singleton] at he
            rcases he with (he | he) | he
            · exact htr0 e he
            · subst he; simp [orderAmountPosB]
            · exact executeOrder_posOrders env now s _ hamt e he
          | error er =>
            simp only [hr, List.mem_append, List.mem_singleton] at he
            rcases he with ((he | he) | he) | he
            · exact htr0 e he
            · subst he; simp [orderAmountPosB]
            · exact executeOrder_posOrders env now s _ hamt e he
            · subst he; simp [orderAmountPosB]
        · simp only [hl, ht, hz, hamt, if_false, if_neg, not_false_iff,
            List.mem_append, List.mem_singleton] at he
          rcases he with he | he
          · exact htr0 e he
          · subst he; simp [orderAmountPosB]

lemma sellAllGo_posOrders (env : Env) (now : Nat) :
    ∀ (l : List (String × Rat)) (s : ExchState),
      posOrders (sellAllGo env now l s).2 := by
  intro l
  induction l with
  | nil => intro s e he; simp [sellAllGo] at he
  | cons p t ih =>
    intro s e he
    obtain ⟨a, b⟩ := p
    by_cases hc : 0 < b ∧ a ≠ "USDT"
    · obtain ⟨h1, h2⟩ := hc
      simp only [sellAllGo, h1, h2, if_true, if_pos, ne_eq, not_false_iff, true_and,
        List.mem_append] at he
      rcases he with he | he
      · exact sellAsset_posOrders env now s a 100 e he
      · exact ih _ e he
    · simp only [sellAllGo, hc, if_false, if_neg, not_false_iff] at he
      exact ih s e he

lemma sellAllAssets_posOrders (env : Env) (now : Nat) (s : ExchState) :
    posOrders (sellAllAssets env now s).2 :=
  sellAllGo_posOrders env now s.balances s

lemma executeTradeAdvice_posOrders (env : Env) (now : Nat) (s : ExchState) (adv : TradeAdvice) :
    posOrders (executeTradeAdvice env now s adv).2.1 := by
  intro e he
  unfold executeTradeAdvice at he
  by_cases hb : adv.position = "buy"
  · simp only [hb, if_true, if_pos] at he
    exact buyAsset_posOrders env now s adv.asset 20 adv.duration e he
  · by_cases hs' : adv.position = "sell"
    · simp only [hb, hs', if_true, if_false, if_pos, if_neg, not_false_iff] at he
      by_cases ha : adv.asset = "all"
      · by_cases hc : containsA adv.asset (sellAllAssets env now s).1.balances = true
        · rw [ha] at hc
          simp [ha, hc] at he
          rcases he with he | he
          · exact sellAllAssets_posOrders env now s e he
          · exact sellAsset_posOrders env now _ _ 100 e he
        · rw [ha] at hc
          simp [ha, hc] at he
          exact sellAllAssets_posOrders env now s e he
      · by_cases hc : containsA adv.asset s.balances = true
        · simp [ha, hc] at he
          exact sellAsset_posOrders env now s adv.asset 100 e he
        · simp [ha, hc] at he
    · simp [hb, hs'] at he

lemma exchangeInit_posOrders (env : Env) (now : Nat) (fee : Rat) :
    posOrders (exchangeInit env now fee).2 := by
  intro e he
  unfold exchangeInit at he
  simp only [List.mem_cons] at he
  rcases he with he | he
  · subst he; simp [orderAmountPosB]
  · exact sellAllGo_posOrders env now _ _ e he

lemma sellAsset_keysEq (env : Env) (now : Nat) (s : ExchState) (a : String) (p : Rat)
    (h : keysEq s) : keysEq (sellAsset env now s a p).1 := by
  unfold sellAsset
  cases hl : lookupA a s.balances with
  | none => simpa using h
  | some bal =>
    by_cases hamt : 0 < bal * p / 100 * (1 - s.maxFee)
    · simp only [hamt, if_true, if_pos]
      have hk : keysEq (executeOrder env now s ⟨"sell", a, bal * p / 100 * (1 - s.maxFee), none⟩).1 :=
        executeOrder_keysEq env now s _ (fun hcontra => by simp at hcontra) h
      cases hr : (executeOrder env now s ⟨"sell", a, bal * p / 100 * (1 - s.maxFee), none⟩).2.2 with
      | ok u => simpa [hr] using hk
      | error er => simpa [hr] using hk
    · simpa [hamt] using h

lemma buyAsset_keysEq (env : Env) (now : Nat) (s : ExchState) (a : String) (p : Rat)
    (dur : Option Nat) (hdur : dur.isSome) (h : keysEq s) :
    keysEq (buyAsset env now s a p dur).1 := by
  unfold buyAsset
  cases hl : lookupA "USDT" s.balances with
  | none => simpa using h
  | some usdt =>
    cases ht : env.tickerPrice a with
    | none => simpa using h
    | some price =>
      by_cases hz : price = 0
      · simpa [hz] using h
      · by_cases hamt : 0 < usdt * p / 100 * (1 - s.maxFee) / price
        · simp only [hz, hamt, if_true, if_false, if_pos, if_neg, not_false_iff]
          have hk : keysEq (executeOrder env now s
              ⟨"buy", a, usdt * p / 100 * (1 - s.maxFee) / price, dur⟩).1 :=
            executeOrder_keysEq env now s _ (fun _ => hdur) h
          cases hr : (executeOrder env now s
              ⟨"buy", a, usdt * p / 100 * (1 - s.maxFee) / price, dur⟩).2.2 with
          | ok u => simpa [hr] using hk
          | error er => simpa [hr] using hk
        · simpa [hz, hamt] using h

lemma sellAllGo_keysEq (env : Env) (now : Nat) :
    ∀ (l : List (String × Rat)) (s : ExchState), keysEq s → keysEq (sellAllGo env now l s).1 := by
  intro l
  induction l with
  | nil => intro s h; simpa [sellAllGo] using h
  | cons q t ih =>
    intro s h
    obtain ⟨a, b⟩ := q
    by_cases hc : 0 < b ∧ a ≠ "USDT"
    · obtain ⟨h1, h2⟩ := hc
      simp only [sellAllGo, h1, h2, ne_eq, not_false_iff, true_and, if_true, if_pos]
      exact ih _ (sellAsset_keysEq env now s a 100 h)
    · simp only [sellAllGo, hc, if_false, if_neg, not_false_iff]
      exact ih s h

lemma sellAllAssets_keysEq (env : Env) (now : Nat) (s : ExchState) (h : keysEq s) :
    keysEq (sellAllAssets env now s).1 :=
  sellAllGo_keysEq env now s.balances s h

lemma executeTradeAdvice_keysEq (env : Env) (now : Nat) (s : ExchState) (adv : TradeAdvice)
    (hd : adv.position = "buy" → (adv.duration).isSome) (h : keysEq s) :
    keysEq (executeTradeAdvice env now s adv).1 := by
  unfold executeTradeAdvice
  by_cases hb : adv.position = "buy"
  · simp only [hb, if_true, if_pos]
    exact buyAsset_keysEq env now s adv.asset 20 adv.duration (hd hb) h
  · by_cases hs' : adv.position = "sell"
    · simp only [hb, hs', if_true, if_false, if_pos, if_neg, not_false_iff]
      by_cases ha : adv.asset = "all"
      · have hall : keysEq (sellAllAssets env now s).1 := sellAllAssets_keysEq env now s h
        by_cases hc : containsA adv.asset (sellAllAssets env now s).1.balances = true
        · rw [ha] at hc
          simp only [ha, hc, if_true, if_pos]
          exact sellAsset_keysEq env now _ "all" 100 hall
        · rw [ha] at hc
          simp only [ha, hc, if_true, if_false, if_pos, if_neg]
          exact hall
      · by_cases hc : containsA adv.asset s.balances = true
        · simp only [ha, hc, if_true, if_false, if_pos, if_neg, not_false_iff]
          exact sellAsset_keysEq env now s adv.asset 100 h
        · simp only [ha, hc, if_false, if_neg, not_false_iff]
          exact h
    · simpa [hb, hs'] using h

lemma exchangeInit_keysEq (env : Env) (now : Nat) (fee : Rat) :
    keysEq (exchangeInit env now fee).1 := by
  unfold exchangeInit
  exact sellAllGo_keysEq env now _ _ rfl

lemma executeOrder_marketBuy (env : Env) (now : Nat) (s : ExchState) (o : TradeOrder)
    (sym : String) (amt : Rat) (h : Event.marketBuy sym amt ∈ (executeOrder env now s o).2.1) :
    sym = o.asset ++ "/USDT" ∧ amt = o.amount := by
  rcases executeOrder_trace env now s o _ h with h1 | h1 | h1 | ⟨m, h1⟩ <;> simp_all

/-- Claim C1: the expiry sweep is claimed to issue a full-balance market
sell for every overdue position and remove its timestamps.  In the code,
`_sellOverdueAssets` calls the four-field namedtuple `TradeOrder` with only
three arguments, so the first overdue position raises `TypeError` instead:
at a state with an overdue BTC position the public sweep entry point
returns a `TypeError`, makes no exchange call and changes no state. -/
theorem sweep_overdue_typeError :
    sellRequiredAssets envW 10 sOverdue = (sOverdue, [], Except.error PyErr.typeError) := by
  simp [sellRequiredAssets, sellOverdueAssets, sellOverdueList, sOverdue, lookupA]

/-- Claim C2: the parser is claimed to return no directive and not raise on
`buy ETH`.  In the code the `parts[0]` read hits an empty list (the
`len(parts) == 2` guard tests the token count left after destructuring,
not the original), so `buy ETH` raises `IndexError`. -/
theorem parse_buy_no_duration_indexError :
    parseGptResponse "buy ETH" = Except.error PyErr.indexError := rfl

/-- Claim C3 counterexample: the claim says a sell directive is produced
exactly for two-token responses, any other token count producing none; the
three-token response `sell BTC ETH` nevertheless produces a sell
directive. -/
theorem parse_sell_extra_tokens_accepted :
    pySplit "sell BTC ETH" = ["sell", "BTC", "ETH"] ∧
    parseGptResponse "sell BTC ETH" = Except.ok (some ⟨"sell", "BTC", none⟩) :=
  ⟨rfl, rfl⟩

/-- Claim C3 (amended): the parser returns a sell directive with null
duration (asset = second token) exactly for responses that strip to two
or more whitespace-separated tokens whose first token is `sell`. -/
theorem parse_sell_characterization (resp : String) (a : String) :
    parseGptResponse resp = Except.ok (some ⟨"sell", a, none⟩) ↔
      ∃ rest, pySplit resp = "sell" :: a :: rest := by
  constructor
  · intro h
    rcases hs : pySplit resp with _ | ⟨p, _ | ⟨a', rest⟩⟩
    · simp [parseGptResponse, hs] at h
    · simp [parseGptResponse, hs] at h
    · by_cases hp : p = "sell"
      · subst hp
        simp [parseGptResponse, hs] at h
        subst h
        exact ⟨rest, rfl⟩
      · by_cases hb : p = "buy"
        · subst hb
          rcases rest with _ | ⟨d, rest2⟩
          · simp [parseGptResponse, hs] at h
          · by_cases hlen : rest2.length = 1
            · simp [parseGptResponse, hs, hlen] at h
            · by_cases hdig : pyIsDigit d = true
              · simp [parseGptResponse, hs, hlen, hdig] at h
              · simp [parseGptResponse, hs, hlen, hdig] at h
        · simp [parseGptResponse, hs, hp, hb] at h
  · rintro ⟨rest, hs⟩
    simp [parseGptResponse, hs]

/-- Claim C3 witness: `sell BTC` parses to a sell directive. -/
theorem parse_sell_characterization_witness :
    parseGptResponse "sell BTC" = Except.ok (some ⟨"sell", "BTC", none⟩) :=
  (parse_sell_characterization "sell BTC" "BTC").mpr ⟨[], by decide⟩

/-- Claim C4 counterexample: the claim says every failure raised during
sizing is caught and does not propagate; at a state whose snapshot lacks
the quote currency, the sizing read `self._asset_balances['USDT']` (which
sits outside the `try` block) raises a `KeyError` that escapes to the
caller. -/
theorem buyAsset_missing_quote_propagates :
    buyAsset envW 0 sNoQuote "BTC" 20 (some 5) =
      (sNoQuote, [], Except.error (PyErr.keyError "USDT")) := by
  simp [buyAsset, sNoQuote, lookupA]

/-- Claim C4 (amended): `buyAsset` sizes the order as
`quoteBalance * percent/100 * (1 - maxFee)` converted through the latest
ticker price, submits it only when positive, and catches and logs every
failure raised from the ticker fetch onwards; but the initial
quote-balance read is outside the guard, so a snapshot without the quote
currency makes a `KeyError` propagate to the caller. -/
theorem buyAsset_sizing_and_isolation (env : Env) (now : Nat) (s : ExchState)
    (asset : String) (percent : Rat) (dur : Option Nat) :
    (lookupA "USDT" s.balances = none →
      buyAsset env now s asset percent dur = (s, [], Except.error (PyErr.keyError "USDT")))
    ∧ (∀ usdt, lookupA "USDT" s.balances = some usdt →
        (buyAsset env now s asset percent dur).2.2 = Except.ok () ∧
        ∀ sym amt, Event.marketBuy sym amt ∈ (buyAsset env now s asset percent dur).2.1 →
          sym = asset ++ "/USDT" ∧ 0 < amt ∧
          ∃ price, env.tickerPrice asset = some price ∧
            amt = usdt * percent / 100 * (1 - s.maxFee) / price) := by
  constructor
  · intro h
    simp [buyAsset, h]
  · intro usdt hq
    constructor
    · unfold buyAsset
      simp only [hq]
      cases ht : env.tickerPrice asset with
      | none => simp
      | some price =>
        by_cases hz : price = 0
        · simp [hz]
        · by_cases hamt : 0 < usdt * percent / 100 * (1 - s.maxFee) / price
          · simp only [hz, hamt, if_true, if_false, if_pos, if_neg, not_false_iff]
            cases hr : (executeOrder env now s
                ⟨"buy", asset, usdt * percent / 100 * (1 - s.maxFee) / price, dur⟩).2.2 <;>
              simp [hr]
          · simp [hz, hamt]
    · intro sym amt hmem
      unfold buyAsset at hmem
      simp only [hq] at hmem
      cases ht : env.tickerPrice asset with
      | none => simp [ht] at hmem
      | some price =>
        by_cases hz : price = 0
        · simp [ht, hz] at hmem
        · by_cases hamt : 0 < usdt * percent / 100 * (1 - s.maxFee) / price
          · simp only [ht, hz, hamt, if_true, if_false, if_pos, if_neg, not_false_iff] at hmem
            cases hr : (executeOrder env now s
                ⟨"buy", asset, usdt * percent / 100 * (1 - s.maxFee) / price, dur⟩).2.2 with
            | ok u =>
              simp only [hr, List.mem_append, List.mem_singleton] at hmem
              rcases hmem with (hm | hm) | hm
              · exfalso; split at hm <;> simp at hm
              · simp at hm
              · obtain ⟨hsym, hamt'⟩ := executeOrder_marketBuy env now s _ sym amt hm
                exact ⟨hsym, hamt' ▸ hamt, price, rfl, hamt'⟩
            | error er =>
              simp only [hr, List.mem_append, List.mem_singleton] at hmem
              rcases hmem with ((hm | hm) | hm) | hm
              · exfalso; split at hm <;> simp at hm
              · simp at hm
              · obtain ⟨hsym, hamt'⟩ := executeOrder_marketBuy env now s _ sym amt hm
                exact ⟨hsym, hamt' ▸ hamt, price, rfl, hamt'⟩
              · simp at hm
          · simp only [ht, hz, hamt, if_false, if_neg, not_false_iff,
              List.mem_append, List.mem_singleton] at hmem
            rcases hmem with hm | hm
            · exfalso; split at hm <;> simp at hm
            · simp at hm

/-- Claim C4 witness: at the concrete quote-less state the propagating
`KeyError` is observed. -/
theorem buyAsset_sizing_and_isolation_witness :
    buyAsset envW 0 sNoQuote "BTC" 20 (some 5) =
      (sNoQuote, [], Except.error (PyErr.keyError "USDT")) :=
  (buyAsset_sizing_and_isolation envW 0 sNoQuote "BTC" 20 (some 5)).1 (by decide)

/-- Claim C5: when the order's asset is missing from the snapshot,
`_executeOrder` refreshes exactly once; if the asset is still missing the
order is dropped with no exchange order, no log and no change to the
position maps. -/
theorem executeOrder_missing_asset_dropped (env : Env) (now : Nat) (s : ExchState)
    (order : TradeOrder)
    (h1 : containsA order.asset s.balances = false)
    (h2 : containsA order.asset (refreshedBalances env) = false) :
    executeOrder env now s order =
      ({ s with balances := refreshedBalances env }, [Event.fetchBalance], Except.ok ()) := by
  simp [executeOrder, h1, h2, refreshBalances]

/-- Claim C5 witness. -/
theorem executeOrder_missing_asset_dropped_witness :
    executeOrder envW 0 sNoQuote ⟨"sell", "DOGE", 1, none⟩ =
      ({ sNoQuote with balances := refreshedBalances envW }, [Event.fetchBalance],
        Except.ok ()) :=
  executeOrder_missing_asset_dropped envW 0 sNoQuote ⟨"sell", "DOGE", 1, none⟩
    (by decide) (by decide)

/-- Claim C6: a buy directive is executed as `buyAsset` with the fixed
percentage 20 and the directive's duration; and on a sell directive the
`asset == 'all'` and `asset in balances` checks are independent: at a
state where the literal symbol `all` is itself a funded tracked asset,
the directive `sell all` both bulk-liquidates every non-quote asset and
then also direct-sells the asset named `all`. -/
theorem executeTradeAdvice_buy_percent_and_double_sell :
    (∀ (env : Env) (now : Nat) (s : ExchState) (a : String) (d : Option Nat),
      executeTradeAdvice env now s ⟨"buy", a, d⟩ = buyAsset env now s a 20 d)
    ∧ executeTradeAdvice envW 0 sDouble ⟨"sell", "all", none⟩ =
      ({ sDouble with buyTime := [], sellTime := [] },
       [Event.marketSell "all/USDT" 10, Event.log (LogMsg.executed ⟨"sell", "all", 10, none⟩),
        Event.marketSell "BTC/USDT" 5, Event.log (LogMsg.executed ⟨"sell", "BTC", 5, none⟩),
        Event.marketSell "all/USDT" 10, Event.log (LogMsg.failedSell "all")],
       Except.ok ()) := by
  constructor
  · intro env now s a d
    simp [executeTradeAdvice]
  · simp [executeTradeAdvice, sellAllAssets, sellAllGo, sellAsset, executeOrder,
      executeOrderCore, sDouble, envW, lookupA, containsA, eraseA, refreshBalances,
      refreshedBalances, insertA]

/-- Claim C7 counterexample: the parity between `_buy_time` and
`_sell_time` is claimed to hold in every state reachable by the engine's
operations, but executing a buy directive whose duration is null (a
well-typed directive, since sell directives carry a null duration) writes
`_buy_time` and then raises inside `timedelta(hours=None)` before
`_sell_time` is written; the exception is caught and logged in
`_buyAsset`, leaving a reachable state whose two maps disagree. -/
theorem parity_break_reachable :
    Reachable (executeTradeAdvice envW 0 (exchangeInit envW 0 0).1 ⟨"buy", "BTC", none⟩).1 ∧
    ¬ keysEq (executeTradeAdvice envW 0 (exchangeInit envW 0 0).1 ⟨"buy", "BTC", none⟩).1 := by
  constructor
  · exact Reachable.advice envW 0 ⟨"buy", "BTC", none⟩ _ (Reachable.init envW 0 0)
  · simp [keysEq, executeTradeAdvice, buyAsset, executeOrder, executeOrderCore, exchangeInit,
      sellAllAssets, sellAllGo, sellAsset, envW, lookupA, containsA, insertA, eraseA,
      refreshBalances, refreshedBalances]

/-- Claim C7 (amended): in every state reachable by construction, sweep,
sell execution and buy execution whose directive carries a duration, an
asset has a `_buy_time` entry iff it has a `_sell_time` entry (the two
maps hold the same keys in the same order). -/
theorem reachable_duration_parity : ∀ s, ReachableD s → keysEq s := by
  intro s h
  induction h with
  | init env now fee => exact exchangeInit_keysEq env now fee
  | advice env now adv s h hd ih => exact executeTradeAdvice_keysEq env now s adv hd ih
  | sweep env now s h ih => exact ih

/-- Claim C7 witness: the freshly constructed engine state satisfies the
parity invariant. -/
theorem reachable_duration_parity_witness : keysEq (exchangeInit envW 0 0).1 :=
  reachable_duration_parity _ (ReachableD.init envW 0 0)

/-- Claim C8: no execution path submits an order with non-positive
amount: every market order event in the trace of directive execution, the
expiry sweep, bulk liquidation, or construction has positive amount. -/
theorem no_nonpositive_order_submitted (env : Env) (now : Nat) (fee : Rat)
    (s : ExchState) (adv : TradeAdvice) :
    posOrdersB (executeTradeAdvice env now s adv).2.1 = true ∧
    posOrdersB (sellRequiredAssets env now s).2.1 = true ∧
    posOrdersB (sellAllAssets env now s).2 = true ∧
    posOrdersB (exchangeInit env now fee).2 = true := by
  refine ⟨?_, ?_, ?_, ?_⟩
  · exact (posOrders_iff _).mpr (executeTradeAdvice_posOrders env now s adv)
  · simp [sellRequiredAssets, sellOverdueAssets, posOrdersB]
  · exact (posOrders_iff _).mpr (sellAllAssets_posOrders env now s)
  · exact (posOrders_iff _).mpr (exchangeInit_posOrders env now fee)

/-- Claim C9 counterexample: selling an asset that has a balance but no
recorded open position is claimed to propagate a fault to the engine's
caller; at a concrete such state the sell directive completes with
`Except.ok` — the internal `KeyError` is caught and logged at the
`_sellAsset` boundary after the market sell has already been submitted. -/
theorem untracked_sell_not_propagated :
    executeTradeAdvice envW 0 sUntracked ⟨"sell", "BTC", none⟩ =
      (sUntracked, [Event.marketSell "BTC/USDT" 4, Event.log (LogMsg.failedSell "BTC")],
        Except.ok ()) := by
  simp [executeTradeAdvice, sellAsset, executeOrder, executeOrderCore, sUntracked, envW,
    lookupA, containsA, insertA, eraseA, refreshBalances, refreshedBalances]

/-- Claim C9 (amended): selling an asset with no recorded open position
raises `KeyError` inside `_executeOrder` (after the market sell has been
submitted), but on the directive path the fault is caught and logged at
the `_sellAsset` boundary: `executeTradeAdvice` returns `ok` for every
sell directive and never propagates the fault to the engine's caller. -/
theorem untracked_sell_fault_location (env : Env) (now : Nat) (s : ExchState)
    (o : TradeOrder)
    (h0 : o.position = "sell")
    (h1 : containsA o.asset s.balances = true)
    (h2 : containsA o.asset s.buyTime = false)
    (h3 : env.orderFails (o.asset ++ "/USDT") = false) :
    (executeOrder env now s o).2.2 = Except.error (PyErr.keyError o.asset) ∧
    ∀ adv : TradeAdvice, adv.position = "sell" →
      (executeTradeAdvice env now s adv).2.2 = Except.ok () := by
  constructor
  · simp [executeOrder, executeOrderCore, h0, h1, h2, h3]
  · intro adv hadv
    simp only [executeTradeAdvice, hadv]
    repeat' split
    all_goals simp_all

/-- Claim C9 witness: the `KeyError` inside `_executeOrder` observed at
the concrete untracked state. -/
theorem untracked_sell_fault_location_witness :
    (executeOrder envW 0 sUntracked ⟨"sell", "BTC", 4, none⟩).2.2 =
      Except.error (PyErr.keyError "BTC") :=
  (untracked_sell_fault_location envW 0 sUntracked ⟨"sell", "BTC", 4, none⟩
    rfl (by decide) (by decide) (by decide)).1

/-- Claim C10: a sell directive whose asset is neither the literal `all`
nor a key of the balance snapshot does nothing at all: no exchange call,
no balance refresh, no log, and the state (snapshot and both position
maps) is returned unchanged. -/
theorem sell_unknown_asset_noop (env : Env) (now : Nat) (s : ExchState) (asset : String)
    (dur : Option Nat) (h1 : asset ≠ "all") (h2 : containsA asset s.balances = false) :
    executeTradeAdvice env now s ⟨"sell", asset, dur⟩ = (s, [], Except.ok ()) := by
  simp [executeTradeAdvice, h1, h2]

/-- Claim C10 witness. -/
theorem sell_unknown_asset_noop_witness :
    executeTradeAdvice envW 0 sUntracked ⟨"sell", "DOGE", none⟩ =
      (sUntracked, [], Except.ok ()) :=
  sell_unknown_asset_noop envW 0 sUntracked "DOGE" none (by decide) (by decide)

end GCT
